import Mathlib

/-!
Shallow embedding of `src/trace/trace.c` (utrace, the syscall tracer of
openwrt-procd).

The pure fragments of the C code are translated to executable Lean
definitions.  The effectful ptrace callback `tracer_cb` is modelled as a
function from its inputs (the raw wait status, the result of the
`PTRACE_PEEKUSER` register read, the pid delivered by `PTRACE_GETEVENTMSG`)
to an explicit record of the effects it performs; the uloop dispatcher is a
fold of that step over a list of delivered events.  The syscall-name table
(`syscall-names.h`, generated at build time, not part of the repository's
sources) is an abstract parameter `names : List (Option String)`: a `none`
entry is a NULL pointer in the C array.
-/

set_option maxRecDepth 100000

/-! ## Wait-status decoding (glibc / musl `sys/wait.h` macros)

For a nonnegative status word `s`, `s % 256` is `s & 0xff`, `s / 256 % 256`
is `(s & 0xff00) >> 8`, `s % 128` is `s & 0x7f`, and `s / 65536` is
`s >> 16`. -/

/-- `WIFSTOPPED(s)`: `(s & 0xff) == 0x7f`. -/
def WIFSTOPPED (s : Nat) : Bool := s % 256 == 0x7f

/-- `WSTOPSIG(s)`: `(s & 0xff00) >> 8`. -/
def WSTOPSIG (s : Nat) : Nat := s / 256 % 256

/-- `WEXITSTATUS(s)`: `(s & 0xff00) >> 8`. -/
def WEXITSTATUS (s : Nat) : Nat := s / 256 % 256

/-- `WIFEXITED(s)`: `(s & 0x7f) == 0`. -/
def WIFEXITED (s : Nat) : Bool := s % 128 == 0

/-- `WTERMSIG(s)`: `s & 0x7f`. -/
def WTERMSIG (s : Nat) : Nat := s % 128

/-- `WIFSIGNALED(s)`: the low seven bits are neither `0` (an exit status)
nor `0x7f` (a stop status). -/
def WIFSIGNALED (s : Nat) : Bool := (s % 128 != 0) && (s % 128 != 127)

def SIGTRAP : Nat := 5

def PTRACE_EVENT_FORK : Nat := 1

def PTRACE_EVENT_VFORK : Nat := 2

def PTRACE_EVENT_CLONE : Nat := 3

def PTRACE_EVENT_STOP : Nat := 128

/-- trace.c line 162: `WIFSTOPPED(ret) || (ret >> 16)`. -/
def isStopBranch (ret : Nat) : Bool := WIFSTOPPED ret || ret / 65536 != 0

/-- trace.c line 163: `WSTOPSIG(ret) & 0x80` (the `PTRACE_O_TRACESYSGOOD`
marker bit distinguishing syscall traps from signal stops). -/
def isSyscallTrap (ret : Nat) : Bool := WSTOPSIG ret &&& 0x80 != 0

/-- trace.c line 176: `(ret >> 8) == (SIGTRAP | (PTRACE_EVENT_FORK << 8))`. -/
def isForkStatus (ret : Nat) : Bool := ret / 256 == (SIGTRAP ||| (PTRACE_EVENT_FORK <<< 8))

/-- trace.c line 177: the same test for `PTRACE_EVENT_VFORK`. -/
def isVforkStatus (ret : Nat) : Bool := ret / 256 == (SIGTRAP ||| (PTRACE_EVENT_VFORK <<< 8))

/-- trace.c line 178: the same test for `PTRACE_EVENT_CLONE`. -/
def isCloneStatus (ret : Nat) : Bool := ret / 256 == (SIGTRAP ||| (PTRACE_EVENT_CLONE <<< 8))

/-- trace.c line 187: `(ret >> 16) == PTRACE_EVENT_STOP`. -/
def isEventStop (ret : Nat) : Bool := ret / 65536 == PTRACE_EVENT_STOP

/-- trace.c line 195: `WIFEXITED(ret) || (WIFSIGNALED(ret) && WTERMSIG(ret))`. -/
def isExitStatus (ret : Nat) : Bool := WIFEXITED ret || (WIFSIGNALED ret && WTERMSIG ret != 0)

/-! ## The counter table

`syscall_count` is a heap array of `syscall_max` C ints, indexed in
`tracer_cb` by the *signed* value read from the tracee's registers; we model
it as a total map on `ℤ` so that the index the code actually writes is
recorded exactly, including indices below the array. -/

/-- `syscall_count[sc]++`. -/
def bumpCount (c : Int → Nat) (sc : Int) : Int → Nat :=
  fun j => if j = sc then c j + 1 else c j

/-- trace.c lines 165-173: the counting done at a syscall entry, guarded only
by `syscall < syscall_max`. -/
def handleEntry (syscall_max : Int) (c : Int → Nat) (sc : Int) : Int → Nat :=
  if sc < syscall_max then bumpCount c sc else c

/-- `struct tracee` (trace.c lines 66-69), with `proc.pid` flattened to `pid`
and the C int `in_syscall` modelled as the Bool it is used as. -/
structure tracee where
  pid : Int
  in_syscall : Bool
deriving DecidableEq

/-! ## The semantic events of the Status Decoder -/

inductive TraceEvent where
  | syscallBoundary
  | newChildEvent (kind : Nat)
  | genericGroupStop
  | signalDeliveryStop (signal : Nat)
  | exited (code : Nat)
  | signaled (signal : Nat)
  | unknown
deriving DecidableEq

/-- The Status Decoder: the branch conditions of `tracer_cb`
(trace.c lines 162, 163, 176-178, 187, 195), in the order the code tests
them, turned into a tagged variant. -/
def decodeStatus (ret : Nat) : TraceEvent :=
  if isStopBranch ret then
    if isSyscallTrap ret then .syscallBoundary
    else if isForkStatus ret then .newChildEvent PTRACE_EVENT_FORK
    else if isVforkStatus ret then .newChildEvent PTRACE_EVENT_VFORK
    else if isCloneStatus ret then .newChildEvent PTRACE_EVENT_CLONE
    else if isEventStop ret then .genericGroupStop
    else .signalDeliveryStop (WSTOPSIG ret)
  else if isExitStatus ret then
    if WIFEXITED ret then .exited (WEXITSTATUS ret) else .signaled (WTERMSIG ret)
  else .unknown

/-- `isTerminalEvent e` holds of the two terminal variants. -/
def isTerminalEvent : TraceEvent → Bool
  | .exited _ => true
  | .signaled _ => true
  | _ => false

/-! ## The tracer callback -/

/-- The observable effect of one invocation of `tracer_cb` (trace.c lines
154-208):
* `counts`, `in_syscall`: the counter table and the tracee's flag afterwards;
* `newChild`: the tracee allocated, armed and registered via
  `uloop_process_add(&child->proc)` on a fork/vfork/clone event;
* `childArm`: the `ptrace(PTRACE_SYSCALL, child->proc.pid, 0, 0)` request;
* `loopEnded`: whether `uloop_end()` was called;
* `freed`: whether `free(tracee)` was called;
* `contSignal = some sig`: the `ptrace(PTRACE_SYSCALL, c->pid, 0, sig)`
  continuation request at line 206 (`none` when the callback returned at
  line 203 without continuing);
* `reAdded`: whether `uloop_process_add(c)` re-registered the tracee. -/
structure CbEffect where
  counts : Int → Nat
  in_syscall : Bool
  newChild : Option tracee
  childArm : Option (Int × Nat)
  loopEnded : Bool
  freed : Bool
  contSignal : Option Nat
  reAdded : Bool

/-- The effect shared by every path that falls through to lines 206-207:
continue with signal 0 and re-register. -/
def baseEffect (c : Int → Nat) (f : Bool) : CbEffect :=
  ⟨c, f, none, none, false, false, some 0, true⟩

/-- The effect of the terminal branch (trace.c lines 195-204): `uloop_end()`
for the root tracee, `free` for any other, and an immediate return. -/
def terminalEffect (isRoot : Bool) (c : Int → Nat) (f : Bool) : CbEffect :=
  ⟨c, f, none, none, isRoot, !isRoot, none, false⟩

/-- trace.c lines 154-208.  `isRoot` is `tracee == &tracer`; `ret` is the
raw wait status; `peeked` is the int returned by
`ptrace(PTRACE_PEEKUSER, c->pid, reg_syscall_nr)` (−1 when the read fails);
`eventMsg` is the pid stored by `PTRACE_GETEVENTMSG`. -/
def tracer_cb (isRoot : Bool) (in_syscall : Bool) (counts : Int → Nat)
    (syscall_max : Int) (ret : Nat) (peeked : Int) (eventMsg : Int) : CbEffect :=
  if isStopBranch ret then
    if isSyscallTrap ret then
      baseEffect (if in_syscall then counts else handleEntry syscall_max counts peeked)
        (!in_syscall)
    else if isForkStatus ret || isVforkStatus ret || isCloneStatus ret then
      { baseEffect counts in_syscall with
          newChild := some ⟨eventMsg, false⟩, childArm := some (eventMsg, 0) }
    else if isEventStop ret then
      baseEffect counts in_syscall
    else
      { baseEffect counts in_syscall with contSignal := some (WSTOPSIG ret) }
  else if isExitStatus ret then
    terminalEffect isRoot counts in_syscall
  else
    baseEffect counts in_syscall

/-- The effect of `tracer_cb` as a function of the decoded event: the
specification-side restatement used to relate the callback to the Status
Decoder. -/
def effectOfEvent (isRoot in_syscall : Bool) (counts : Int → Nat)
    (syscall_max : Int) (peeked eventMsg : Int) : TraceEvent → CbEffect
  | .syscallBoundary =>
      baseEffect (if in_syscall then counts else handleEntry syscall_max counts peeked)
        (!in_syscall)
  | .newChildEvent _ =>
      { baseEffect counts in_syscall with
          newChild := some ⟨eventMsg, false⟩, childArm := some (eventMsg, 0) }
  | .genericGroupStop => baseEffect counts in_syscall
  | .signalDeliveryStop s => { baseEffect counts in_syscall with contSignal := some s }
  | .exited _ => terminalEffect isRoot counts in_syscall
  | .signaled _ => terminalEffect isRoot counts in_syscall
  | .unknown => baseEffect counts in_syscall

/-- The signal passed to `ptrace(PTRACE_SYSCALL, …)` on continuation, per
decoded event: the delivered signal for a signal-delivery stop, nothing for
a terminal event, 0 otherwise. -/
def contSignalSpec : TraceEvent → Option Nat
  | .signalDeliveryStop s => some s
  | .exited _ => none
  | .signaled _ => none
  | _ => some 0

theorem tracer_cb_decode (isRoot in_syscall : Bool) (counts : Int → Nat)
    (syscall_max : Int) (ret : Nat) (peeked eventMsg : Int) :
    tracer_cb isRoot in_syscall counts syscall_max ret peeked eventMsg =
      effectOfEvent isRoot in_syscall counts syscall_max peeked eventMsg
        (decodeStatus ret) := by
  unfold tracer_cb decodeStatus
  split_ifs <;> first | rfl | simp_all [effectOfEvent]

/-! ## A single tracee's state machine and the dispatcher

`uloop_process_add` registers a process with uloop; when `waitpid` reports a
status change for it, uloop removes its registration and invokes its
callback, which may re-register it.  The dispatcher loop `uloop_run` returns
once `uloop_end()` has been called.  An event delivered to the dispatcher is
a pid together with the raw status and the values the two ptrace reads of
`tracer_cb` would return at that moment. -/

structure DispEvent where
  pid : Int
  status : Nat
  peeked : Int
  eventMsg : Int

structure DispState where
  registry : List tracee
  counts : Int → Nat
  ended : Bool

def findTracee (reg : List tracee) (p : Int) : Option tracee :=
  reg.find? (fun t => t.pid == p)

def removeTracee (reg : List tracee) (p : Int) : List tracee :=
  reg.filter (fun t => t.pid != p)

/-- The registry after one callback invocation: the delivered tracee's old
entry is gone (uloop removed it before the callback ran), it is re-added
when the callback re-registered it, and a new child entry appears when one
was created. -/
def assembleRegistry (eff : CbEffect) (p : Int) (reg1 : List tracee) :
    List tracee :=
  let reg2 := if eff.reAdded then tracee.mk p eff.in_syscall :: reg1 else reg1
  match eff.newChild with
  | some ch => ch :: reg2
  | none => reg2

/-- One iteration of the uloop reactor: deliver `ev` to the registered
tracee with that pid (if any), apply the `tracer_cb` effect to the registry
and the counter table.  After `uloop_end()` nothing further is processed. -/
def dispatchStep (syscall_max root : Int) (st : DispState) (ev : DispEvent) :
    DispState :=
  if st.ended then st
  else
    match findTracee st.registry ev.pid with
    | none => st
    | some t =>
      let eff := tracer_cb (ev.pid == root) t.in_syscall st.counts syscall_max
        ev.status ev.peeked ev.eventMsg
      ⟨assembleRegistry eff ev.pid (removeTracee st.registry ev.pid),
        eff.counts, eff.loopEnded⟩

def runDispatcher (syscall_max root : Int) (st : DispState)
    (evs : List DispEvent) : DispState :=
  evs.foldl (dispatchStep syscall_max root) st

/-- The view of `tracer_cb` seen by one fixed (non-root) tracee: its
`in_syscall` flag and the counter table, evolving under a list of
(status, peeked) events delivered to it. -/
def traceeStep (syscall_max : Int) (st : Bool × (Int → Nat)) (ev : Nat × Int) :
    Bool × (Int → Nat) :=
  let eff := tracer_cb false st.1 st.2 syscall_max ev.1 ev.2 0
  (eff.in_syscall, eff.counts)

def runTracee (syscall_max : Int) (st : Bool × (Int → Nat))
    (evs : List (Nat × Int)) : Bool × (Int → Nat) :=
  evs.foldl (traceeStep syscall_max) st

/-! ## The policy emitter (trace.c lines 79-152) -/

/-- `syscall_count[i] = val` on the in-range view used by the emitter,
which only ever indexes with the loop counter `0 ≤ i < ARRAY_SIZE`. -/
def updateCountN (c : Nat → Nat) (i : Nat) (v : Nat) : Nat → Nat :=
  fun j => if j = i then v else c j

/-- The loop of `set_syscall` (trace.c lines 79-88) from index `i` on:
assign `val` to the first slot whose non-NULL name equals `name`, then
return; leave the table unchanged when no slot matches. -/
def set_syscall_from (names : List (Option String)) (i : Nat) (name : String)
    (val : Nat) (counts : Nat → Nat) : Nat → Nat :=
  match names with
  | [] => counts
  | none :: rest => set_syscall_from rest (i + 1) name val counts
  | some n :: rest =>
    if n = name then updateCountN counts i val
    else set_syscall_from rest (i + 1) name val counts

/-- trace.c lines 79-88: `set_syscall(name, val)`. -/
def set_syscall (names : List (Option String)) (name : String) (val : Nat)
    (counts : Nat → Nat) : Nat → Nat :=
  set_syscall_from names 0 name val counts

/-- trace.c lines 105-109: the five forced baseline entries, in program
order. -/
def forceSyscalls (names : List (Option String)) (counts : Nat → Nat) :
    Nat → Nat :=
  set_syscall names "exit" 1
    (set_syscall names "exit_group" 1
      (set_syscall names "rt_sigreturn" 1
        (set_syscall names "sigreturn" 1
          (set_syscall names "rt_sigaction" 1 counts))))

def mandatoryNames : List String :=
  ["rt_sigaction", "sigreturn", "rt_sigreturn", "exit_group", "exit"]

/-- The index `set_syscall` assigns to: the first slot of `names`, counted
from `i`, holding exactly `name`. -/
def firstIdxFrom (names : List (Option String)) (i : Nat) (name : String) :
    Option Nat :=
  match names with
  | [] => none
  | none :: rest => firstIdxFrom rest (i + 1) name
  | some n :: rest => if n = name then some i else firstIdxFrom rest (i + 1) name

def firstIdx (names : List (Option String)) (name : String) : Option Nat :=
  firstIdxFrom names 0 name

/-- `struct syscall` (trace.c lines 90-93). -/
structure Syscall where
  syscall : Nat
  count : Nat
deriving DecidableEq

/-- trace.c lines 95-98: `cmp_count`, the qsort comparator — count
descending, no tie-break. -/
def cmp_count (a b : Syscall) : Int := (b.count : Int) - (a.count : Int)

/-- trace.c lines 113-116: the array `sorted` before sorting — every
syscall number `0 ≤ i < n` paired with its count, in ascending number
order. -/
def buildSorted (c : Nat → Nat) (n : Nat) : List Syscall :=
  (List.range n).map (fun i => ⟨i, c i⟩)

/-- The postcondition C11 7.22.5.2 gives for `qsort(…, cmp_count)`: the
output is a permutation of the input in which no element compares greater
than a later one.  The relative order of elements comparing equal is
unspecified, so the result is a relation, not a function. -/
def qsortPost (l out : List Syscall) : Prop :=
  l.Perm out ∧ out.Pairwise (fun a b => cmp_count a b ≤ 0)

instance (l out : List Syscall) : Decidable (qsortPost l out) := by
  unfold qsortPost
  exact instDecidableAnd

/-- trace.c lines 123-135: walk the sorted array, stop at the first
zero-count entry, emit the name of each surviving entry that has one, log
and skip (`ERROR("no name found …")`) entries whose table slot is NULL. -/
def emitWhitelist (names : List (Option String)) : List Syscall → List String
  | [] => []
  | s :: rest =>
    if s.count == 0 then []
    else
      match names.getD s.syscall none with
      | some nm => nm :: emitWhitelist names rest
      | none => emitWhitelist names rest

/-- Where the artifact of `print_syscalls` ends up (trace.c lines 138-151). -/
inductive OutputDest where
  | toFile (path : String)
  | toStdout
  | droppedWithError (path : String)
deriving DecidableEq

/-- trace.c lines 138-151: with an output path, write to it when `fopen`
succeeds and otherwise only log `ERROR("failed to open …")`; write to
standard output only when `json` is NULL. -/
def outputDest (json : Option String) (fopenOk : String → Bool) : OutputDest :=
  match json with
  | some path => if fopenOk path then .toFile path else .droppedWithError path
  | none => .toStdout

/-- The claim's reading of step 2 of the Policy Emitter: count descending
with ties broken by ascending syscall number. -/
def tieOrdered (out : List Syscall) : Prop :=
  out.Pairwise (fun a b => b.count < a.count ∨ (a.count = b.count ∧ a.syscall < b.syscall))

instance (out : List Syscall) : Decidable (tieOrdered out) := by
  unfold tieOrdered
  exact List.instDecidablePairwise out

/-! ## Concrete fixtures used by counterexamples and witnesses -/

/-- The spec's tie-break scenario: syscalls 5 and 9 each counted once, all
other counts zero, over a ten-entry table. -/
def cexCounts : Nat → Nat := fun i => if i = 5 ∨ i = 9 then 1 else 0

/-- A `qsort`-consistent output for `cexCounts` putting 5 before 9. -/
def tieAsc : List Syscall :=
  [⟨5, 1⟩, ⟨9, 1⟩, ⟨0, 0⟩, ⟨1, 0⟩, ⟨2, 0⟩, ⟨3, 0⟩, ⟨4, 0⟩, ⟨6, 0⟩, ⟨7, 0⟩, ⟨8, 0⟩]

/-- A `qsort`-consistent output for `cexCounts` putting 9 before 5. -/
def tieDesc : List Syscall :=
  [⟨9, 1⟩, ⟨5, 1⟩, ⟨0, 0⟩, ⟨1, 0⟩, ⟨2, 0⟩, ⟨3, 0⟩, ⟨4, 0⟩, ⟨6, 0⟩, ⟨7, 0⟩, ⟨8, 0⟩]

/-- A one-entry syscall table holding only `rt_sigaction`. -/
def tblCex : List (Option String) := [some "rt_sigaction"]

/-- Observed counts for `tblCex`: `rt_sigaction` was seen twice. -/
def cntCex : Nat → Nat := fun _ => 2

/-- A six-entry table containing all five mandatory names and `read`. -/
def tblW : List (Option String) :=
  [some "rt_sigaction", some "sigreturn", some "rt_sigreturn",
   some "exit_group", some "exit", some "read"]

/-- Observed counts for `tblW`: every slot was seen seven times. -/
def cntW : Nat → Nat := fun _ => 7

/-- A three-entry table whose middle slot has no name. -/
def namesW : List (Option String) := [some "read", none, some "exit"]

/-- Observed counts for `namesW`. -/
def cntE : Nat → Nat := fun i => if i = 0 then 3 else if i = 1 then 2 else 0

/-! ## Helper lemmas: `set_syscall` -/

theorem set_syscall_from_firstIdx (nm : String) (v : Nat) (c : Nat → Nat) :
    ∀ (names : List (Option String)) (i j : Nat),
      firstIdxFrom names i nm = some j →
      set_syscall_from names i nm v c = updateCountN c j v := by
  intro names
  induction names with
  | nil => intro i j h; simp [firstIdxFrom] at h
  | cons hd tl ih =>
    intro i j h
    cases hd with
    | none =>
      simp only [firstIdxFrom] at h
      simpa [set_syscall_from] using ih (i + 1) j h
    | some n =>
      by_cases hn : n = nm
      · simp only [firstIdxFrom, hn, if_pos] at h
        simp only [Option.some.injEq] at h
        subst h
        simp [set_syscall_from, hn]
      · simp only [firstIdxFrom, hn, if_neg, if_false] at h
        simpa [set_syscall_from, hn] using ih (i + 1) j h

theorem firstIdxFrom_getD (nm : String) :
    ∀ (names : List (Option String)) (i j : Nat),
      firstIdxFrom names i nm = some j →
      i ≤ j ∧ names.getD (j - i) none = some nm := by
  intro names
  induction names with
  | nil => intro i j h; simp [firstIdxFrom] at h
  | cons hd tl ih =>
    intro i j h
    cases hd with
    | none =>
      simp only [firstIdxFrom] at h
      obtain ⟨hle, hgd⟩ := ih (i + 1) j h
      refine ⟨by omega, ?_⟩
      have hji : j - i = (j - (i + 1)) + 1 := by omega
      rw [hji]
      simpa using hgd
    | some n =>
      by_cases hn : n = nm
      · simp only [firstIdxFrom, hn, if_pos, Option.some.injEq] at h
        subst h
        simp [hn]
      · simp only [firstIdxFrom, hn, if_neg, if_false] at h
        obtain ⟨hle, hgd⟩ := ih (i + 1) j h
        refine ⟨by omega, ?_⟩
        have hji : j - i = (j - (i + 1)) + 1 := by omega
        rw [hji]
        simpa using hgd

theorem set_syscall_from_untouched (nm : String) (v : Nat) :
    ∀ (names : List (Option String)) (i : Nat) (c : Nat → Nat) (j : Nat),
      (j < i ∨ names.getD (j - i) none ≠ some nm) →
      set_syscall_from names i nm v c j = c j := by
  intro names
  induction names with
  | nil => intro i c j _; rfl
  | cons hd tl ih =>
    intro i c j h
    have hnext : j < i + 1 ∨ tl.getD (j - (i + 1)) none ≠ some nm := by
      rcases Nat.lt_or_ge j (i + 1) with hj | hj
      · exact Or.inl hj
      · refine Or.inr ?_
        rcases h with h | h
        · omega
        · have hji : j - i = (j - (i + 1)) + 1 := by omega
          rw [hji] at h
          simpa using h
    cases hd with
    | none => simpa [set_syscall_from] using ih (i + 1) c j hnext
    | some n =>
      by_cases hn : n = nm
      · have hji : j ≠ i := by
          intro he
          subst he
          rcases h with h | h
          · omega
          · simp [hn] at h
        simp [set_syscall_from, hn, updateCountN, hji]
      · simpa [set_syscall_from, hn] using ih (i + 1) c j hnext

/-- `set_syscall` leaves any slot whose name is not `nm` alone. -/
theorem set_syscall_skip (names : List (Option String)) (c : Nat → Nat)
    (nm : String) (v j : Nat) (hj : names.getD j none ≠ some nm) :
    set_syscall names nm v c j = c j := by
  refine set_syscall_from_untouched nm v names 0 c j (Or.inr ?_)
  simpa using hj

/-- `set_syscall` for a different name leaves a slot named `nm` alone. -/
theorem set_syscall_ne (names : List (Option String)) (c : Nat → Nat)
    (nm nm' : String) (v j : Nat) (hne : nm' ≠ nm)
    (hj : names.getD j none = some nm) :
    set_syscall names nm' v c j = c j := by
  refine set_syscall_skip names c nm' v j ?_
  rw [hj]
  intro h
  exact hne (Option.some.inj h).symm

/-- The forcing step writes exactly 1 into the first slot bearing each
mandatory name. -/
theorem forceSyscalls_mandatory (names : List (Option String)) (c : Nat → Nat)
    (nm : String) (i : Nat) (hm : nm ∈ mandatoryNames)
    (hfirst : firstIdx names nm = some i) :
    forceSyscalls names c i = 1 := by
  have hgd : names.getD i none = some nm := by
    have h := firstIdxFrom_getD nm names 0 i hfirst
    simpa using h.2
  have hf : firstIdxFrom names 0 nm = some i := hfirst
  simp only [mandatoryNames, List.mem_cons, List.not_mem_nil, or_false] at hm
  rcases hm with rfl | rfl | rfl | rfl | rfl
  · unfold forceSyscalls
    rw [set_syscall_ne names _ "rt_sigaction" "exit" 1 i (by decide) hgd,
        set_syscall_ne names _ "rt_sigaction" "exit_group" 1 i (by decide) hgd,
        set_syscall_ne names _ "rt_sigaction" "rt_sigreturn" 1 i (by decide) hgd,
        set_syscall_ne names _ "rt_sigaction" "sigreturn" 1 i (by decide) hgd]
    unfold set_syscall
    rw [set_syscall_from_firstIdx "rt_sigaction" 1 c names 0 i hf]
    simp [updateCountN]
  · unfold forceSyscalls
    rw [set_syscall_ne names _ "sigreturn" "exit" 1 i (by decide) hgd,
        set_syscall_ne names _ "sigreturn" "exit_group" 1 i (by decide) hgd,
        set_syscall_ne names _ "sigreturn" "rt_sigreturn" 1 i (by decide) hgd]
    unfold set_syscall
    rw [set_syscall_from_firstIdx "sigreturn" 1 _ names 0 i hf]
    simp [updateCountN]
  · unfold forceSyscalls
    rw [set_syscall_ne names _ "rt_sigreturn" "exit" 1 i (by decide) hgd,
        set_syscall_ne names _ "rt_sigreturn" "exit_group" 1 i (by decide) hgd]
    unfold set_syscall
    rw [set_syscall_from_firstIdx "rt_sigreturn" 1 _ names 0 i hf]
    simp [updateCountN]
  · unfold forceSyscalls
    rw [set_syscall_ne names _ "exit_group" "exit" 1 i (by decide) hgd]
    unfold set_syscall
    rw [set_syscall_from_firstIdx "exit_group" 1 _ names 0 i hf]
    simp [updateCountN]
  · unfold forceSyscalls set_syscall
    rw [set_syscall_from_firstIdx "exit" 1 _ names 0 i hf]
    simp [updateCountN]

/-- The forcing step leaves every slot not bearing a mandatory name
unchanged. -/
theorem forceSyscalls_untouched (names : List (Option String)) (c : Nat → Nat)
    (j : Nat) (h : ∀ nm ∈ mandatoryNames, names.getD j none ≠ some nm) :
    forceSyscalls names c j = c j := by
  unfold forceSyscalls
  rw [set_syscall_skip names _ "exit" 1 j (h "exit" (by decide)),
      set_syscall_skip names _ "exit_group" 1 j (h "exit_group" (by decide)),
      set_syscall_skip names _ "rt_sigreturn" 1 j (h "rt_sigreturn" (by decide)),
      set_syscall_skip names _ "sigreturn" 1 j (h "sigreturn" (by decide)),
      set_syscall_skip names _ "rt_sigaction" 1 j (h "rt_sigaction" (by decide))]

/-! ## Helper lemmas: the emission loop -/

/-- Everything the emission loop outputs comes from a nonzero-count entry of
the sorted array whose table slot holds a name. -/
theorem emitWhitelist_mem (names : List (Option String)) :
    ∀ (l : List Syscall) (nm : String), nm ∈ emitWhitelist names l →
      ∃ s ∈ l, s.count ≠ 0 ∧ names.getD s.syscall none = some nm := by
  intro l
  induction l with
  | nil => intro nm h; simp [emitWhitelist] at h
  | cons s rest ih =>
    intro nm h
    by_cases hc : s.count = 0
    · simp [emitWhitelist, hc] at h
    · have hcb : (s.count == 0) = false := by simpa using hc
      cases hgd : names.getD s.syscall none with
      | none =>
        simp only [emitWhitelist, hcb, Bool.false_eq_true, if_false, hgd] at h
        obtain ⟨t, ht, hcnt, hname⟩ := ih nm h
        exact ⟨t, List.mem_cons_of_mem s ht, hcnt, hname⟩
      | some nm' =>
        simp only [emitWhitelist, hcb, Bool.false_eq_true, if_false, hgd,
          List.mem_cons] at h
        rcases h with rfl | h
        · exact ⟨s, List.mem_cons_self s rest, hc, hgd⟩
        · obtain ⟨t, ht, hcnt, hname⟩ := ih nm h
          exact ⟨t, List.mem_cons_of_mem s ht, hcnt, hname⟩

/-- Each entry of the pre-sort array is a syscall number below the table
size paired with its (post-forcing) count. -/
theorem buildSorted_mem (c : Nat → Nat) (n : Nat) :
    ∀ s ∈ buildSorted c n, s.syscall < n ∧ s.count = c s.syscall := by
  intro s hs
  simp only [buildSorted, List.mem_map, List.mem_range] at hs
  obtain ⟨i, hi, hsi⟩ := hs
  subst hsi
  exact ⟨hi, rfl⟩

/-! ## Claims about the Policy Emitter -/

/-- C1 counterexample: it is not the case that every `qsort`-consistent
output of the emitter's sort is ordered count-descending with ties broken by
ascending syscall number — with syscalls 5 and 9 both counted once, the
output putting 9 before 5 is also `qsort`-consistent, because `cmp_count`
compares counts only and C leaves the order of equal elements unspecified. -/
theorem qsort_tie_order_counterexample :
    ¬ ∀ (counts : Nat → Nat) (n : Nat) (out : List Syscall),
        qsortPost (buildSorted counts n) out → tieOrdered out := by
  intro h
  exact absurd (h cexCounts 10 tieDesc (by decide)) (by decide)

/-- C1 amended: every `qsort`-consistent output of the emitter's sort is
ordered by count descending, but the comparator `cmp_count` provides no
tie-break, so the relative order of equal-count syscall numbers — and hence
the emitted ordering — is not uniquely determined: for the spec's own
example (5 and 9 both counted once) both orders are consistent outputs. -/
theorem qsort_count_descending_ties_underdetermined :
    (∀ (counts : Nat → Nat) (n : Nat) (out : List Syscall),
        qsortPost (buildSorted counts n) out →
        out.Pairwise (fun a b => b.count ≤ a.count))
    ∧ qsortPost (buildSorted cexCounts 10) tieAsc
    ∧ qsortPost (buildSorted cexCounts 10) tieDesc
    ∧ tieAsc ≠ tieDesc := by
  refine ⟨?_, by decide, by decide, by decide⟩
  intro counts n out hq
  refine hq.2.imp ?_
  intro a b hab
  unfold cmp_count at hab
  omega

/-- C1 amended witness at the spec's tie-break example. -/
theorem qsort_count_descending_witness :
    tieDesc.Pairwise (fun a b => b.count ≤ a.count) :=
  qsort_count_descending_ties_underdetermined.1 cexCounts 10 tieDesc (by decide)

/-- C2 counterexample: with a table containing `rt_sigaction` at slot 0 and
an observed count of 2 there, the forcing step assigns 1, *decreasing* the
observed nonzero count rather than preserving it (`set_syscall` assigns
`val`, it does not take a maximum). -/
theorem force_overwrites_counterexample :
    "rt_sigaction" ∈ mandatoryNames
    ∧ firstIdx tblCex "rt_sigaction" = some 0
    ∧ cntCex 0 = 2
    ∧ forceSyscalls tblCex cntCex 0 = 1 := by
  refine ⟨by decide, by decide, rfl, by decide⟩

/-- C2 amended: the forcing step sets the count of the first table slot
bearing each mandatory name to exactly 1 — overwriting, and possibly
decreasing, any observed count — and leaves every slot not bearing a
mandatory name unchanged. -/
theorem force_sets_mandatory_to_one :
    (∀ (names : List (Option String)) (c : Nat → Nat) (nm : String) (i : Nat),
        nm ∈ mandatoryNames → firstIdx names nm = some i →
        forceSyscalls names c i = 1)
    ∧ (∀ (names : List (Option String)) (c : Nat → Nat) (j : Nat),
        (∀ nm ∈ mandatoryNames, names.getD j none ≠ some nm) →
        forceSyscalls names c j = c j) :=
  ⟨fun names c nm i hm hf => forceSyscalls_mandatory names c nm i hm hf,
   fun names c j h => forceSyscalls_untouched names c j h⟩

/-- C2 amended witness: over `tblW` (all five mandatory names plus `read`)
with every observed count 7, the slot of `exit` is forced to 1 and the slot
of `read` keeps its count. -/
theorem force_sets_mandatory_to_one_witness :
    forceSyscalls tblW cntW 4 = 1 ∧ forceSyscalls tblW cntW 5 = cntW 5 :=
  ⟨force_sets_mandatory_to_one.1 tblW cntW "exit" 4 (by decide) (by decide),
   force_sets_mandatory_to_one.2 tblW cntW 5 (by decide)⟩

/-- C3: evaluating `tracer_cb` at a syscall-trap stop whose register read
failed (`PTRACE_PEEKUSER` returned −1): the guard `syscall < syscall_max`
admits the negative sentinel, so the occurrence *is* counted — by a write to
counter-table index −1, below the array — contradicting both halves of the
claim (table size 439 here; any size works). -/
theorem negative_syscall_counted_out_of_bounds :
    decodeStatus 34175 = .syscallBoundary
    ∧ (tracer_cb false false (fun _ => 0) 439 34175 (-1) 0).counts (-1) = 1
    ∧ ¬ (0 ≤ (-1 : Int)) := by
  refine ⟨by decide, by decide, by decide⟩

/-- C4 counterexample: when the requested output file cannot be opened the
artifact is *not* written to standard output — `print_syscalls` only logs
`ERROR("failed to open …")` and drops it; standard output is used only when
no path was supplied at all. -/
theorem fopen_failure_counterexample :
    ¬ ∀ (path : String) (fopenOk : String → Bool), fopenOk path = false →
        outputDest (some path) fopenOk = .toStdout := by
  intro h
  exact absurd (h "/tmp/out.json" (fun _ => false) rfl) (by decide)

/-- C4 amended: with an output path, the artifact goes to that file when it
can be opened and is otherwise dropped with an error message; it goes to
standard output exactly when no output path is in effect. -/
theorem output_destination :
    ∀ (path : String) (fopenOk : String → Bool),
      (fopenOk path = false →
        outputDest (some path) fopenOk = .droppedWithError path)
      ∧ (fopenOk path = true → outputDest (some path) fopenOk = .toFile path)
      ∧ outputDest none fopenOk = .toStdout := by
  intro path f
  refine ⟨fun h => ?_, fun h => ?_, rfl⟩
  · simp [outputDest, h]
  · simp [outputDest, h]

/-- C4 amended witness. -/
theorem output_destination_witness :
    outputDest (some "/tmp/out.json") (fun _ => false)
        = .droppedWithError "/tmp/out.json"
    ∧ outputDest none (fun _ => false) = .toStdout :=
  ⟨(output_destination "/tmp/out.json" (fun _ => false)).1 rfl,
   (output_destination "/tmp/out.json" (fun _ => false)).2.2⟩

/-- C8: every name the emitter outputs belongs to a syscall number below the
table size whose post-forcing count is nonzero and whose table slot holds
that name (so zero-count numbers are never emitted), and a nonzero-count
entry whose slot is NULL is skipped while emission continues. -/
theorem whitelist_names_sound :
    (∀ (names : List (Option String)) (counts : Nat → Nat) (out : List Syscall)
        (nm : String),
        qsortPost (buildSorted (forceSyscalls names counts) names.length) out →
        nm ∈ emitWhitelist names out →
        ∃ sc, sc < names.length ∧ forceSyscalls names counts sc ≠ 0 ∧
          names.getD sc none = some nm)
    ∧ (∀ (names : List (Option String)) (s : Syscall) (rest : List Syscall),
        names.getD s.syscall none = none → s.count ≠ 0 →
        emitWhitelist names (s :: rest) = emitWhitelist names rest) := by
  constructor
  · intro names counts out nm hq hmem
    obtain ⟨s, hs, hc, hgd⟩ := emitWhitelist_mem names out nm hmem
    have hsin : s ∈ buildSorted (forceSyscalls names counts) names.length :=
      hq.1.mem_iff.mpr hs
    obtain ⟨hlt, hcnt⟩ := buildSorted_mem _ _ s hsin
    refine ⟨s.syscall, hlt, ?_, hgd⟩
    rw [← hcnt]
    exact hc
  · intro names s rest hgd hc
    have hcb : (s.count == 0) = false := by simpa using hc
    simp only [emitWhitelist, hcb, Bool.false_eq_true, if_false]
    rw [hgd]

/-- C8 witness: over `namesW` (slot 1 unnamed) with counts `cntE`, the
emitted name `exit` resolves to a nonzero-count, named slot, and the
unnamed nonzero-count entry for slot 1 is skipped without stopping
emission. -/
theorem whitelist_names_sound_witness :
    (∃ sc, sc < namesW.length ∧ forceSyscalls namesW cntE sc ≠ 0 ∧
      namesW.getD sc none = some "exit")
    ∧ emitWhitelist namesW (⟨1, 2⟩ :: [⟨2, 1⟩]) = emitWhitelist namesW [⟨2, 1⟩] :=
  ⟨whitelist_names_sound.1 namesW cntE [⟨0, 3⟩, ⟨1, 2⟩, ⟨2, 1⟩] "exit"
      (by decide) (by decide),
   whitelist_names_sound.2 namesW ⟨1, 2⟩ [⟨2, 1⟩] (by decide) (by decide)⟩

/-! ## Helper lemmas: the callback as a function of the decoded event -/

theorem tracer_cb_boundary (isRoot f : Bool) (c : Int → Nat) (m : Int)
    (ret : Nat) (pk em : Int) (h : decodeStatus ret = .syscallBoundary) :
    tracer_cb isRoot f c m ret pk em =
      baseEffect (if f then c else handleEntry m c pk) (!f) := by
  rw [tracer_cb_decode, h]
  rfl

theorem tracer_cb_reAdded_eq (isRoot f : Bool) (c : Int → Nat) (m : Int)
    (ret : Nat) (pk em : Int) :
    (tracer_cb isRoot f c m ret pk em).reAdded
      = !isTerminalEvent (decodeStatus ret) := by
  rw [tracer_cb_decode]
  cases decodeStatus ret <;> rfl

theorem tracer_cb_contSignal_isSome (isRoot f : Bool) (c : Int → Nat) (m : Int)
    (ret : Nat) (pk em : Int) :
    (tracer_cb isRoot f c m ret pk em).contSignal.isSome
      = !isTerminalEvent (decodeStatus ret) := by
  rw [tracer_cb_decode]
  cases decodeStatus ret <;> rfl

theorem tracer_cb_loopEnded_eq (isRoot f : Bool) (c : Int → Nat) (m : Int)
    (ret : Nat) (pk em : Int) :
    (tracer_cb isRoot f c m ret pk em).loopEnded
      = (isRoot && isTerminalEvent (decodeStatus ret)) := by
  rw [tracer_cb_decode]
  cases decodeStatus ret <;>
    simp [effectOfEvent, baseEffect, terminalEffect, isTerminalEvent]

theorem tracer_cb_terminal (isRoot f : Bool) (c : Int → Nat) (m : Int)
    (ret : Nat) (pk em : Int)
    (h : isTerminalEvent (decodeStatus ret) = true) :
    tracer_cb isRoot f c m ret pk em = terminalEffect isRoot c f := by
  rw [tracer_cb_decode]
  rcases hd : decodeStatus ret <;> rw [hd] at h <;>
    first | rfl | simp [isTerminalEvent] at h

/-! ## Claims about the Tracee state machine -/

/-- Flipping the flag corresponds to extending the run by one event. -/
theorem xor_parity_flip (b : Bool) (n : Nat) :
    Bool.xor (!b) (decide (n % 2 = 1)) = Bool.xor b (decide ((n + 1) % 2 = 1)) := by
  rcases Nat.mod_two_eq_zero_or_one n with hp | hp
  · have h1 : (n + 1) % 2 = 1 := by omega
    simp [hp, h1]
  · have h1 : (n + 1) % 2 = 0 := by omega
    simp [hp, h1]

/-- The tracee's flag after one callback invocation: flipped by a
syscall-boundary event, untouched by every other event (fork/vfork/clone,
group stop, signal delivery, terminal, unknown). -/
theorem tracer_cb_in_syscall_eq (isRoot f : Bool) (c : Int → Nat) (m : Int)
    (ret : Nat) (pk em : Int) :
    (tracer_cb isRoot f c m ret pk em).in_syscall
      = (if decodeStatus ret = .syscallBoundary then !f else f) := by
  rw [tracer_cb_decode]
  cases decodeStatus ret <;>
    simp [effectOfEvent, baseEffect, terminalEffect]

/-- C5 parity helper, over an *arbitrary* stream of delivered events: the
flag after the run is the starting flag XORed with the parity of the number
of syscall-boundary events in the stream; interleaved non-boundary events
never disturb it. -/
theorem runTracee_parity_general (m : Int) :
    ∀ (evs : List (Nat × Int)) (f : Bool) (c : Int → Nat),
      (runTracee m (f, c) evs).1
        = Bool.xor f (decide ((evs.filter
            (fun ev => decodeStatus ev.1 == TraceEvent.syscallBoundary)).length
              % 2 = 1)) := by
  intro evs
  induction evs with
  | nil => intro f c; simp [runTracee]
  | cons e es ih =>
    intro f c
    have hrun : runTracee m (f, c) (e :: es)
        = runTracee m (traceeStep m (f, c) e) es := rfl
    have hpair : traceeStep m (f, c) e
        = ((tracer_cb false f c m e.1 e.2 0).in_syscall,
           (tracer_cb false f c m e.1 e.2 0).counts) := rfl
    rw [hrun, hpair, ih, tracer_cb_in_syscall_eq]
    by_cases hd : decodeStatus e.1 = TraceEvent.syscallBoundary
    · have hpb : (decodeStatus e.1 == TraceEvent.syscallBoundary) = true := by
        simp [hd]
      rw [if_pos hd, List.filter_cons, hpb]
      simp only [if_true, List.length_cons]
      exact xor_parity_flip f _
    · have hpb : (decodeStatus e.1 == TraceEvent.syscallBoundary) = false := by
        simp [hd]
      rw [if_neg hd, List.filter_cons, hpb]
      simp only [Bool.false_eq_true, if_false]

/-- C5: every syscall-boundary event toggles the tracee's `in_syscall`
flag and every other event leaves it untouched; the counter table changes
only when the flag was false (an entry), never when it was true (an exit);
and over an *arbitrary* stream of delivered events — boundary stops freely
interleaved with signal-delivery, fork/vfork/clone, group-stop and terminal
events — the flag of a fresh tracee is set exactly when an odd number of
boundary events have been seen, so each entry/exit pair increments the
counter once. -/
theorem boundary_parity_single_count :
    (∀ (isRoot f : Bool) (c : Int → Nat) (m : Int) (ret : Nat) (pk em : Int),
        decodeStatus ret = .syscallBoundary →
        (tracer_cb isRoot f c m ret pk em).in_syscall = !f)
    ∧ (∀ (isRoot f : Bool) (c : Int → Nat) (m : Int) (ret : Nat) (pk em : Int),
        decodeStatus ret ≠ .syscallBoundary →
        (tracer_cb isRoot f c m ret pk em).in_syscall = f)
    ∧ (∀ (isRoot : Bool) (c : Int → Nat) (m : Int) (ret : Nat) (pk em : Int),
        decodeStatus ret = .syscallBoundary →
        (tracer_cb isRoot true c m ret pk em).counts = c)
    ∧ (∀ (isRoot : Bool) (c : Int → Nat) (m : Int) (ret : Nat) (pk em : Int),
        decodeStatus ret = .syscallBoundary →
        (tracer_cb isRoot false c m ret pk em).counts = handleEntry m c pk)
    ∧ (∀ (m : Int) (c : Int → Nat) (evs : List (Nat × Int)),
        (runTracee m (false, c) evs).1
          = decide ((evs.filter
              (fun ev => decodeStatus ev.1 == TraceEvent.syscallBoundary)).length
                % 2 = 1)) := by
  refine ⟨?_, ?_, ?_, ?_, ?_⟩
  · intro isRoot f c m ret pk em h
    rw [tracer_cb_boundary isRoot f c m ret pk em h]
    rfl
  · intro isRoot f c m ret pk em h
    rw [tracer_cb_in_syscall_eq, if_neg h]
  · intro isRoot c m ret pk em h
    rw [tracer_cb_boundary isRoot true c m ret pk em h]
    rfl
  · intro isRoot c m ret pk em h
    rw [tracer_cb_boundary isRoot false c m ret pk em h]
    rfl
  · intro m c evs
    rw [runTracee_parity_general m evs false c]
    simp

/-- C5 witness: the syscall-trap status 34175 (stop signal `0x85`, i.e.
`SIGTRAP | 0x80`) toggles the flag and counts on entry only; the
signal-delivery status 639 leaves the flag alone; and across the mixed
stream boundary/signal/boundary the flag ends false (two boundary events,
even), matching the filter-parity. -/
theorem boundary_parity_single_count_witness :
    (tracer_cb false false (fun _ => 0) 439 34175 3 0).in_syscall = true
    ∧ (tracer_cb false true (fun _ => 0) 439 639 3 0).in_syscall = true
    ∧ (tracer_cb false true (fun _ => 0) 439 34175 3 0).counts = (fun _ => 0)
    ∧ (tracer_cb false false (fun _ => 0) 439 34175 3 0).counts
        = handleEntry 439 (fun _ => 0) 3
    ∧ (runTracee 439 (false, fun _ => 0) [(34175, 3), (639, 0), (34175, 3)]).1
        = decide (([(34175, 3), (639, 0), (34175, 3)].filter
            (fun ev => decodeStatus ev.1 == TraceEvent.syscallBoundary)).length
              % 2 = 1) :=
  ⟨boundary_parity_single_count.1 false false (fun _ => 0) 439 34175 3 0 (by decide),
   boundary_parity_single_count.2.1 false true (fun _ => 0) 439 639 3 0 (by decide),
   boundary_parity_single_count.2.2.1 false (fun _ => 0) 439 34175 3 0 (by decide),
   boundary_parity_single_count.2.2.2.1 false (fun _ => 0) 439 34175 3 0 (by decide),
   boundary_parity_single_count.2.2.2.2 439 (fun _ => 0)
     [(34175, 3), (639, 0), (34175, 3)]⟩

/-- C6: the signal passed back on continuation is exactly the stop signal
for a signal-delivery stop, nothing for a terminal event (no continuation
happens), and 0 for every other event. -/
theorem continuation_signal (isRoot f : Bool) (c : Int → Nat) (m : Int)
    (ret : Nat) (pk em : Int) :
    (tracer_cb isRoot f c m ret pk em).contSignal
      = contSignalSpec (decodeStatus ret) := by
  rw [tracer_cb_decode]
  cases decodeStatus ret <;> rfl

/-- C9: on a fork, vfork or clone event the callback creates a tracee whose
pid is the event message and whose `in_syscall` flag is false, arms it with
`PTRACE_SYSCALL` and signal 0, registers it, and re-arms (signal 0) and
re-registers the triggering parent; counters and the parent's flag are
untouched. -/
theorem new_child_registration (isRoot f : Bool) (c : Int → Nat) (m : Int)
    (ret : Nat) (pk em : Int) (kind : Nat)
    (h : decodeStatus ret = .newChildEvent kind) :
    tracer_cb isRoot f c m ret pk em =
      { counts := c, in_syscall := f, newChild := some ⟨em, false⟩,
        childArm := some (em, 0), loopEnded := false, freed := false,
        contSignal := some 0, reAdded := true } := by
  rw [tracer_cb_decode, h]
  rfl

/-- C9 witness at the concrete fork-event status 66943
(`(SIGTRAP | (PTRACE_EVENT_FORK << 8)) << 8 | 0x7f`) with event message
pid 42. -/
theorem new_child_registration_witness :
    tracer_cb false false (fun _ => 0) 439 66943 0 42 =
      { counts := fun _ => 0, in_syscall := false, newChild := some ⟨42, false⟩,
        childArm := some (42, 0), loopEnded := false, freed := false,
        contSignal := some 0, reAdded := true } :=
  new_child_registration false false (fun _ => 0) 439 66943 0 42 1 (by decide)

/-- C10: after a terminal event the callback performs no continuation
request and no re-registration; after every non-terminal event it performs
exactly one of each. -/
theorem terminal_no_continue (isRoot f : Bool) (c : Int → Nat) (m : Int)
    (ret : Nat) (pk em : Int) :
    (tracer_cb isRoot f c m ret pk em).reAdded
        = !isTerminalEvent (decodeStatus ret)
    ∧ (tracer_cb isRoot f c m ret pk em).contSignal.isSome
        = !isTerminalEvent (decodeStatus ret) :=
  ⟨tracer_cb_reAdded_eq isRoot f c m ret pk em,
   tracer_cb_contSignal_isSome isRoot f c m ret pk em⟩

/-! ## Helper lemmas: the dispatcher loop -/

theorem findTracee_isSome (reg : List tracee) (p : Int)
    (h : ∃ t ∈ reg, t.pid = p) : (findTracee reg p).isSome = true := by
  obtain ⟨t, ht, hp⟩ := h
  unfold findTracee
  simp only [List.find?_isSome]
  exact ⟨t, ht, by simp [hp]⟩

theorem mem_assembleRegistry_of_mem (eff : CbEffect) (p : Int)
    (reg1 : List tracee) (x : tracee) (hx : x ∈ reg1) :
    x ∈ assembleRegistry eff p reg1 := by
  unfold assembleRegistry
  rcases hnc : eff.newChild with _ | ch <;> cases hr : eff.reAdded <;>
    simp [hnc, hr, hx]

theorem readded_mem_assembleRegistry (eff : CbEffect) (p : Int)
    (reg1 : List tracee) (hr : eff.reAdded = true) :
    tracee.mk p eff.in_syscall ∈ assembleRegistry eff p reg1 := by
  unfold assembleRegistry
  rcases hnc : eff.newChild with _ | ch <;> simp [hnc, hr]

theorem dispatchStep_ended_absorb (m root : Int) (st : DispState)
    (ev : DispEvent) (h : st.ended = true) : dispatchStep m root st ev = st := by
  unfold dispatchStep
  simp [h]

theorem runDispatcher_ended_absorb (m root : Int) :
    ∀ (evs : List DispEvent) (st : DispState), st.ended = true →
      runDispatcher m root st evs = st := by
  intro evs
  induction evs with
  | nil => intro st _; rfl
  | cons e es ih =>
    intro st h
    have hrun : runDispatcher m root st (e :: es)
        = runDispatcher m root (dispatchStep m root st e) es := rfl
    rw [hrun, dispatchStep_ended_absorb m root st e h]
    exact ih st h

theorem dispatchStep_some (m root : Int) (st : DispState) (ev : DispEvent)
    (t : tracee) (hb : st.ended = false)
    (hf : findTracee st.registry ev.pid = some t) :
    dispatchStep m root st ev =
      ⟨assembleRegistry
          (tracer_cb (ev.pid == root) t.in_syscall st.counts m ev.status
            ev.peeked ev.eventMsg)
          ev.pid (removeTracee st.registry ev.pid),
        (tracer_cb (ev.pid == root) t.in_syscall st.counts m ev.status
          ev.peeked ev.eventMsg).counts,
        (tracer_cb (ev.pid == root) t.in_syscall st.counts m ev.status
          ev.peeked ev.eventMsg).loopEnded⟩ := by
  unfold dispatchStep
  simp [hb, hf]

theorem dispatchStep_skip (m root : Int) (st : DispState) (ev : DispEvent)
    (hb : st.ended = false) (hf : findTracee st.registry ev.pid = none) :
    dispatchStep m root st ev = st := by
  unfold dispatchStep
  simp [hb, hf]

theorem dispatchStep_ended_iff (m root : Int) (st : DispState)
    (ev : DispEvent) :
    (dispatchStep m root st ev).ended
      = (st.ended || ((findTracee st.registry ev.pid).isSome
          && ((ev.pid == root) && isTerminalEvent (decodeStatus ev.status)))) := by
  by_cases hb : st.ended = true
  · rw [dispatchStep_ended_absorb m root st ev hb, hb]
    simp
  · have hb' : st.ended = false := by simpa using hb
    cases hf : findTracee st.registry ev.pid with
    | none =>
      rw [dispatchStep_skip m root st ev hb' hf, hb']
      simp
    | some t =>
      rw [dispatchStep_some m root st ev t hb' hf]
      show (tracer_cb (ev.pid == root) t.in_syscall st.counts m ev.status
        ev.peeked ev.eventMsg).loopEnded = _
      rw [tracer_cb_loopEnded_eq, hb']
      simp

theorem dispatchStep_root_mem (m root : Int) (st : DispState) (ev : DispEvent)
    (hroot : ∃ t ∈ st.registry, t.pid = root)
    (hend : (dispatchStep m root st ev).ended = false) :
    ∃ t ∈ (dispatchStep m root st ev).registry, t.pid = root := by
  by_cases hb : st.ended = true
  · rw [dispatchStep_ended_absorb m root st ev hb]
    exact hroot
  · have hb' : st.ended = false := by simpa using hb
    cases hf : findTracee st.registry ev.pid with
    | none =>
      rw [dispatchStep_skip m root st ev hb' hf]
      exact hroot
    | some t =>
      rw [dispatchStep_some m root st ev t hb' hf] at hend ⊢
      have hl : (tracer_cb (ev.pid == root) t.in_syscall st.counts m ev.status
          ev.peeked ev.eventMsg).loopEnded = false := hend
      rw [tracer_cb_loopEnded_eq] at hl
      show ∃ x ∈ assembleRegistry
          (tracer_cb (ev.pid == root) t.in_syscall st.counts m ev.status
            ev.peeked ev.eventMsg)
          ev.pid (removeTracee st.registry ev.pid), x.pid = root
      by_cases hp : ev.pid = root
      · have hpb : (ev.pid == root) = true := by simp [hp]
        rw [hpb] at hl
        simp only [Bool.true_and] at hl
        have hr : (tracer_cb (ev.pid == root) t.in_syscall st.counts m ev.status
            ev.peeked ev.eventMsg).reAdded = true := by
          rw [tracer_cb_reAdded_eq, hl]
          rfl
        exact ⟨tracee.mk ev.pid _, readded_mem_assembleRegistry _ ev.pid _ hr, hp⟩
      · obtain ⟨t0, ht0, hpid⟩ := hroot
        have ht0' : t0 ∈ removeTracee st.registry ev.pid := by
          unfold removeTracee
          rw [List.mem_filter]
          refine ⟨ht0, ?_⟩
          rw [hpid]
          simp only [bne_iff_ne, ne_eq]
          exact fun h => hp h.symm
        exact ⟨t0, mem_assembleRegistry_of_mem _ _ _ t0 ht0', hpid⟩

theorem runDispatcher_root_end (m root : Int) :
    ∀ (evs : List DispEvent) (st : DispState),
      st.ended = false → (∃ t ∈ st.registry, t.pid = root) →
      ((runDispatcher m root st evs).ended = true ↔
        ∃ ev ∈ evs, ev.pid = root
          ∧ isTerminalEvent (decodeStatus ev.status) = true) := by
  intro evs
  induction evs with
  | nil =>
    intro st hb _
    have hnil : runDispatcher m root st [] = st := rfl
    rw [hnil, hb]
    simp
  | cons e es ih =>
    intro st hb hroot
    have hrun : runDispatcher m root st (e :: es)
        = runDispatcher m root (dispatchStep m root st e) es := rfl
    rw [hrun]
    by_cases he : (dispatchStep m root st e).ended = true
    · rw [runDispatcher_ended_absorb m root es _ he, he]
      have h3 := dispatchStep_ended_iff m root st e
      rw [he, hb] at h3
      have h4 : (findTracee st.registry e.pid).isSome = true
          ∧ (e.pid == root) = true
          ∧ isTerminalEvent (decodeStatus e.status) = true := by
        have := h3.symm
        simpa [Bool.and_eq_true] using this
      constructor
      · intro _
        exact ⟨e, List.mem_cons_self e es, by simpa using h4.2.1, h4.2.2⟩
      · intro _
        rfl
    · have he' : (dispatchStep m root st e).ended = false := by simpa using he
      have hroot' := dispatchStep_root_mem m root st e hroot he'
      rw [ih (dispatchStep m root st e) he' hroot']
      constructor
      · rintro ⟨ev, hev, h1, h2⟩
        exact ⟨ev, List.mem_cons_of_mem e hev, h1, h2⟩
      · rintro ⟨ev, hev, h1, h2⟩
        rcases List.mem_cons.mp hev with rfl | hev'
        · exfalso
          have h3 := dispatchStep_ended_iff m root st ev
          have hsome : (findTracee st.registry ev.pid).isSome = true := by
            rw [h1]
            exact findTracee_isSome st.registry root hroot
          have hpb : (ev.pid == root) = true := by simp [h1]
          rw [he', hb, hsome, hpb, h2] at h3
          simp at h3
        · exact ⟨ev, hev', h1, h2⟩

/-- C7: starting with the root tracee registered, the dispatcher loop ends
exactly when a terminal event (Exited or Signaled) of the root tracee is
delivered; a terminal event of any registered non-root tracee merely removes
that tracee from the registry, leaving the counter table alone and the loop
running. -/
theorem root_exit_ends_loop :
    (∀ (m root : Int) (reg : List tracee) (c : Int → Nat)
        (evs : List DispEvent),
        (∃ t ∈ reg, t.pid = root) →
        ((runDispatcher m root ⟨reg, c, false⟩ evs).ended = true ↔
          ∃ ev ∈ evs, ev.pid = root
            ∧ isTerminalEvent (decodeStatus ev.status) = true))
    ∧ (∀ (m root : Int) (st : DispState) (ev : DispEvent) (t : tracee),
        st.ended = false → findTracee st.registry ev.pid = some t →
        ev.pid ≠ root → isTerminalEvent (decodeStatus ev.status) = true →
        dispatchStep m root st ev
          = ⟨removeTracee st.registry ev.pid, st.counts, false⟩) := by
  constructor
  · intro m root reg c evs hroot
    exact runDispatcher_root_end m root evs ⟨reg, c, false⟩ rfl hroot
  · intro m root st ev t hb hf hne hterm
    rw [dispatchStep_some m root st ev t hb hf,
      tracer_cb_terminal (ev.pid == root) t.in_syscall st.counts m ev.status
        ev.peeked ev.eventMsg hterm]
    have hpb : (ev.pid == root) = false := by simp [hne]
    rw [hpb]
    rfl

/-- C7 witness: a run whose single event is the root's clean exit ends the
loop, and a non-root tracee's fatal-signal event only removes its entry. -/
theorem root_exit_ends_loop_witness :
    ((runDispatcher 439 1 ⟨[⟨1, false⟩], fun _ => 0, false⟩
        [⟨1, 0, 0, 0⟩]).ended = true ↔
      ∃ ev ∈ [DispEvent.mk 1 0 0 0], ev.pid = 1
        ∧ isTerminalEvent (decodeStatus ev.status) = true)
    ∧ dispatchStep 439 1 ⟨[⟨1, false⟩, ⟨2, true⟩], fun _ => 0, false⟩
        ⟨2, 9, 0, 0⟩
        = ⟨removeTracee [⟨1, false⟩, ⟨2, true⟩] 2, fun _ => 0, false⟩ :=
  ⟨root_exit_ends_loop.1 439 1 [⟨1, false⟩] (fun _ => 0) [⟨1, 0, 0, 0⟩]
      ⟨⟨1, false⟩, by decide, rfl⟩,
   root_exit_ends_loop.2 439 1 ⟨[⟨1, false⟩, ⟨2, true⟩], fun _ => 0, false⟩
      ⟨2, 9, 0, 0⟩ ⟨2, true⟩ rfl (by decide) (by decide) (by decide)⟩
